import Mathlib

/-!
# Dominions 4 network packets: framing of `packet.go`

A shallow embedding of `src/packet/packet.go` and `src/packet/errors.go`.

* Bytes are `Fin 256`; slices are lists.
* Go `error` values are the inductive `Error`; its constructor `nil` is the nil interface value.
* `io.Reader` and `io.Writer` are records over an explicit state: a call takes the state and
  returns the outcome together with the next state.
* `io.ReadFull` (used by `binary.Read`) loops until the buffer is full or an error shows up; the
  loop is given fuel, and a result of `none` means that the fuel ran out.
* `compress/flate` is outside the repository; the two places where the code calls it are
  parameters (`FlateReader`, `FlateWriter`).
-/

set_option autoImplicit false

namespace packet

/-! ## Bytes and errors -/

/-- One octet. -/
abbrev Byte := Fin 256

/-- Conversion of an integer to a byte, as Go's `byte(v)`. -/
def byte (v : Nat) : Byte := ⟨v % 256, Nat.mod_lt v (by decide)⟩

/-- Values of Go's `error` interface that the package sees or makes.
`ReadError` and `WriteError` are the two struct types of `errors.go`. -/
inductive Error where
  | nil
  | EOF
  | ErrUnexpectedEOF
  | errorString (s : String)
  | other (code : Nat)
  | ReadError (Display : String) (Err : Error)
  | WriteError (Display : String) (Err : Error)
  deriving DecidableEq, Repr

/-- Source: `newReadError` in `errors.go`. -/
def newReadError (str : String) (err : Error) : Error :=
  Error.ReadError str err

/-- Source: `newWriteError` in `errors.go`; the body builds a `ReadError`. -/
def newWriteError (str : String) (err : Error) : Error :=
  Error.ReadError str err

/-! ## `encoding/binary` -/

/-- Go's `binary.LittleEndian.PutUint32`. -/
def PutUint32 (v : Nat) : List Byte :=
  [byte v, byte (v / 256), byte (v / 65536), byte (v / 16777216)]

/-- Go's `binary.LittleEndian.Uint32` on a four byte slice. -/
def Uint32 (bs : List Byte) : Nat :=
  (bs.getD 0 0).val + 256 * (bs.getD 1 0).val + 65536 * (bs.getD 2 0).val
    + 16777216 * (bs.getD 3 0).val

/-- Go's conversion `uint32(n)`. -/
def uint32 (n : Nat) : Nat := n % 4294967296

/-- The values handed to `binary.Write` in `WritePacket`, tagged with their Go type. -/
inductive BinaryData where
  | int (v : Nat)
  | uint32 (v : Nat)
  deriving DecidableEq, Repr

/-- Go's `binary.Write(b, binary.LittleEndian, data)` on a `bytes.Buffer` holding `b`:
the new buffer content and the returned error. A `uint32` is a fixed-size value and is appended
in four bytes. Go's `int` is not a fixed-size value: `binary.Write` returns an error and appends
nothing. -/
def binaryWrite (b : List Byte) : BinaryData → List Byte × Error
  | BinaryData.uint32 v => (b ++ PutUint32 v, Error.nil)
  | BinaryData.int _ => (b, Error.errorString "binary.Write: invalid type int")

/-! ## `io.Reader`, `io.Writer` -/

/-- Outcome of one `Read(p)`: the `n` bytes stored in `p[0:n]`, the error, the next state. -/
structure ReadResult (σ : Type) where
  data : List Byte
  err : Error
  next : σ

/-- An `io.Reader`: `Read s n` is a call with a buffer of `n` bytes in state `s`.
A reader never returns more bytes than the buffer holds. -/
structure Reader (σ : Type) where
  Read : σ → Nat → ReadResult σ
  Read_le : ∀ s n, (Read s n).data.length ≤ n

/-- Outcome of one `Write(p)`: the count, the error, the next state. -/
structure WriteResult (ω : Type) where
  n : Nat
  err : Error
  next : ω

/-- An `io.Writer`: `Write w p` is a call with the bytes `p` in state `w`. -/
structure Writer (ω : Type) where
  Write : ω → List Byte → WriteResult ω

/-- The loop of Go's `io.ReadAtLeast(r, buf, len(buf))`: `acc` is `buf[0:n]`, `size` is
`len(buf)`, `err` the error of the last `Read`. -/
def readFullLoop {σ : Type} (r : Reader σ) (size : Nat) :
    Nat → σ → List Byte → Error → Option (List Byte × Error × σ)
  | fuel, s, acc, err =>
    if acc.length < size ∧ err = Error.nil then
      match fuel with
      | 0 => none
      | fuel + 1 =>
        let rr := r.Read s (size - acc.length)
        readFullLoop r size fuel rr.next (acc ++ rr.data) rr.err
    else some (acc, err, s)

/-- Go's `io.ReadFull(r, buf)` with `len(buf) = size`: the bytes read, the error, the next
state. -/
def ReadFull {σ : Type} (r : Reader σ) (fuel : Nat) (s : σ) (size : Nat) :
    Option (List Byte × Error × σ) :=
  match readFullLoop r size fuel s [] Error.nil with
  | none => none
  | some (acc, err, s1) =>
    if size ≤ acc.length then some (acc, Error.nil, s1)
    else if 0 < acc.length ∧ err = Error.EOF then some (acc, Error.ErrUnexpectedEOF, s1)
    else some (acc, err, s1)

/-- Go's `binary.Read(reader, binary.LittleEndian, &length)` for `length uint32`:
the value stored in `length` (0 when the read fails), the error, the next state. -/
def binaryReadUint32 {σ : Type} (r : Reader σ) (fuel : Nat) (s : σ) :
    Option (Nat × Error × σ) :=
  match ReadFull r fuel s 4 with
  | none => none
  | some (bs, err, s1) =>
    if err ≠ Error.nil then some (0, err, s1) else some (Uint32 bs, Error.nil, s1)

/-- Go's `bytes.Buffer` as a reader; the state is the unread part. An empty buffer answers a
read into an empty slice with `0, nil` and any other read with `0, io.EOF`. At the end of the
stream, files and network connections, the readers `LoadPacket` is documented for, answer in
the same way. -/
def bytesBuffer : Reader (List Byte) where
  Read s n :=
    match s with
    | [] => if n = 0 then ⟨[], Error.nil, []⟩ else ⟨[], Error.EOF, []⟩
    | _ :: _ => ⟨s.take n, Error.nil, s.drop n⟩
  Read_le s n := by
    cases s with
    | nil => by_cases h : n = 0 <;> simp [h]
    | cons a t => simp [List.length_take]

/-- Go's `bytes.Reader` as a reader; the state is the unread part. It differs from
`bytes.Buffer` in one answer: at the end of the data every read, also one into an empty slice,
returns `0, io.EOF`. -/
def bytesReader : Reader (List Byte) where
  Read s n :=
    match s with
    | [] => ⟨[], Error.EOF, []⟩
    | _ :: _ => ⟨s.take n, Error.nil, s.drop n⟩
  Read_le s n := by
    cases s with
    | nil => simp
    | cons a t => simp [List.length_take]

/-- Go's `bytes.Buffer` as a writer; the state is the content. `Write` appends and returns
`len(p), nil`. -/
def bufferWriter : Writer (List Byte) where
  Write w p := ⟨p.length, Error.nil, w ++ p⟩

/-- A writer that passes every call on to `w` and keeps the list of the byte slices it was
handed, in order. -/
def logged {ω : Type} (w : Writer ω) : Writer (ω × List (List Byte)) where
  Write s p :=
    let r := w.Write s.1 p
    ⟨r.n, r.err, (r.next, s.2 ++ [p])⟩

/-! ## `compress/flate` -/

/-- The decompressor as `decompressPacket0x4A` uses it: `Read src n` is the outcome of the first
`Read` into a buffer of `n` bytes on `flate.NewReader(bytes.NewReader(src))`. -/
structure FlateReader where
  Read : List Byte → Nat → List Byte × Error
  Read_le : ∀ src n, (Read src n).1.length ≤ n

/-- The compressor as `WritePacket` uses it: `NewWriter` is the error of
`flate.NewWriter(&zb, 1)`, and `Write data` the count and error of `z.Write(data)`. -/
structure FlateWriter where
  NewWriter : Error
  Write : List Byte → Nat × Error

/-- Go's `compress/flate` writer over a `bytes.Buffer`: level 1 is a valid level, so
`NewWriter` returns no error, and `Write` takes all of its input and returns `len(data), nil`. -/
def flateWriter : FlateWriter where
  NewWriter := Error.nil
  Write data := (data.length, Error.nil)

/-! ## `packet.go` -/

/-- Source: `decompressPacket0x49`. -/
def decompressPacket0x49 (_src : List Byte) (_length : Nat) : List Byte × Error :=
  ([], newReadError "unable to create lzh reader; not yet implemented" Error.nil)

/-- Source: `decompressPacket0x4A`. The named result `err` is still nil at the first test, so
that branch is never taken; the output buffer has `length` bytes and is filled by one `Read`. -/
def decompressPacket0x4A (z : FlateReader) (src : List Byte) (length : Nat) :
    List Byte × Error :=
  let err := Error.nil
  if err ≠ Error.nil then
    ([], newReadError "failed to allocate flate reader for packet decompression" err)
  else
    let r := z.Read src length
    if r.2 ≠ Error.nil then
      ([], newReadError "failed to decompress flate data" r.2)
    else
      (r.1, Error.nil)

/-- Source: `type Packet struct`. -/
structure Packet where
  PacketType : Byte := 0
  PacketSubType : Byte := 0
  Data : List Byte := []
  DataType : Byte := 0
  deriving DecidableEq, Repr

/-- What `LoadPacket` returns (`packet` is `none` for a nil pointer) and the reader state it
leaves behind. -/
structure LoadResult (σ : Type) where
  packet : Option Packet
  err : Error
  rest : σ

/-- Source: `LoadPacket`. -/
def LoadPacket {σ : Type} (reader : Reader σ) (z : FlateReader) (fuel : Nat) (s : σ) :
    Option (LoadResult σ) :=
  let packet : Packet := {}
  -- Read the first byte
  let r0 := reader.Read s 1
  if r0.err ≠ Error.nil then
    some ⟨none, newReadError "failed to read packet: header type" r0.err, r0.next⟩
  else if r0.data.length ≠ 1 then
    some ⟨none, Error.errorString
      "failed to read initial header byte, timeout or other undisclosed error hit", r0.next⟩
  else
    let packet := { packet with PacketType := r0.data.getD 0 0 }
    if packet.PacketType = 0x65 then
      some ⟨some packet, Error.nil, r0.next⟩
    else
      -- Read the second byte (subtype)
      let r1 := reader.Read r0.next 1
      if r1.err ≠ Error.nil then
        some ⟨none, newReadError "failed to read packet: header subtype" r1.err, r1.next⟩
      else if r1.data.length ≠ 1 then
        some ⟨none, Error.errorString
          "failed to read initial header byte, timeout or other undisclosed error hit", r1.next⟩
      else
        let packet := { packet with PacketSubType := r1.data.getD 0 0 }
        -- Read the length
        match binaryReadUint32 reader fuel r1.next with
        | none => none
        | some (length, err, s2) =>
          if err ≠ Error.nil then
            some ⟨none, newReadError "failed to read packet: header length" err, s2⟩
          else
            let r3 := reader.Read s2 length
            if r3.err ≠ Error.nil then
              some ⟨none, newReadError "failed to read packet: bad data read" r3.err, r3.next⟩
            else if r3.data.length ≠ length then
              some ⟨none, Error.errorString
                "failed to read initial packet data: length not met", r3.next⟩
            else
              let raw := r3.data
              if packet.PacketSubType = 0x48 then
                some ⟨some { packet with Data := raw }, Error.nil, r3.next⟩
              else if packet.PacketSubType = 0x49 then
                let d := decompressPacket0x49 raw length
                some ⟨some { packet with Data := d.1 }, d.2, r3.next⟩
              else if packet.PacketSubType = 0x4A then
                let d := decompressPacket0x4A z raw length
                some ⟨some { packet with Data := d.1 }, d.2, r3.next⟩
              else
                some ⟨some packet, Error.nil, r3.next⟩

/-- Source: `(p *Packet) WritePacket`. The result is the returned error and the writer state. -/
def Packet.WritePacket {ω : Type} (p : Packet) (writer : Writer ω) (fw : FlateWriter) (w : ω) :
    Error × ω :=
  let b : List Byte := []
  if p.PacketType = 0x65 then
    let b := b ++ [p.PacketType]
    let r := writer.Write w b
    (r.err, r.next)
  else
    -- Write the type
    let b := b ++ [p.PacketType]
    if p.Data.length < 12 then
      -- Straight on the wire!
      let b := b ++ [0x48]
      let b := (binaryWrite b (BinaryData.int p.Data.length)).1
      let r := writer.Write w b
      (r.err, r.next)
    else
      if fw.NewWriter ≠ Error.nil then
        (newWriteError "failed to create a flate writer, using non-flate" fw.NewWriter, w)
      else
        let b := b ++ [0x4A]
        let zr := fw.Write p.Data
        if zr.2 ≠ Error.nil then
          (newWriteError
            "failed to write packet data to the flate, this is fatal to the stream" zr.2, w)
        else
          let br := binaryWrite b (BinaryData.uint32 (uint32 zr.1))
          if br.2 ≠ Error.nil then
            (newWriteError
              "failed to write packet length to stream, this is fatal to the stream" br.2, w)
          else
            let r := writer.Write w br.1
            if r.err ≠ Error.nil then
              (newWriteError
                "failed to flate data to the stream; this is fatal to the stream" r.err, r.next)
            else
              (Error.nil, r.next)

/-- A decompressor that finds every source cut short: the first `Read` returns
`0, io.ErrUnexpectedEOF`, which is the answer of `compress/flate` to an empty source. The
statements below hold for every `FlateReader`; this one is used to evaluate them on frames
that never reach the decompressor. -/
def flateReaderCutShort : FlateReader where
  Read _ _ := ([], Error.ErrUnexpectedEOF)
  Read_le _ _ := Nat.zero_le _

/-- A reader that plays back a script, as a connection that hands out what arrives: each `Read`
takes the next entry, a chunk of bytes and an error, and returns the chunk cut to the size of
the buffer together with that error; once the script is used up every `Read` returns
`0, io.EOF`. -/
def scripted : Reader (List (List Byte × Error)) where
  Read s n :=
    match s with
    | [] => ⟨[], Error.EOF, []⟩
    | c :: t => ⟨c.1.take n, c.2, t⟩
  Read_le s n := by
    cases s with
    | nil => simp
    | cons c t => simp [List.length_take]

/-- A writer whose every `Write` stores nothing and returns `0, e`, as a closed connection. -/
def failingWriter (e : Error) : Writer Unit where
  Write _ _ := ⟨0, e, ()⟩

/-- The type byte as `LoadPacket` takes it from the stream: `header[0]` after the first
`Read`. -/
def headerType {σ : Type} (reader : Reader σ) (s : σ) : Byte :=
  (reader.Read s 1).data.getD 0 0

/-- The subtype byte as `LoadPacket` takes it from the stream: `header[1]` after the second
`Read`. -/
def headerSubType {σ : Type} (reader : Reader σ) (s : σ) : Byte :=
  (reader.Read (reader.Read s 1).next 1).data.getD 0 0

/-- The outcome of the `binary.Read` of `length` in `LoadPacket`, which comes after the two
header reads. -/
def headerLength {σ : Type} (reader : Reader σ) (fuel : Nat) (s : σ) :
    Option (Nat × Error × σ) :=
  binaryReadUint32 reader fuel (reader.Read (reader.Read s 1).next 1).next

/-! ## Lemmas on the library models -/

theorem Uint32_PutUint32 (v : Nat) : Uint32 (PutUint32 v) = v % 4294967296 := by
  simp [Uint32, PutUint32, byte]
  omega

theorem bytesBuffer_Read_one (a : Byte) (t : List Byte) :
    bytesBuffer.Read (a :: t) 1 = ⟨[a], Error.nil, t⟩ := rfl

theorem bytesBuffer_Read_PutUint32 (v : Nat) (t : List Byte) :
    bytesBuffer.Read (PutUint32 v ++ t) 4 = ⟨PutUint32 v, Error.nil, t⟩ := rfl

theorem bytesBuffer_Read_nil (n : Nat) (h : n ≠ 0) :
    bytesBuffer.Read [] n = ⟨[], Error.EOF, []⟩ := by
  simp [bytesBuffer, h]

/-- A read of more bytes than a non-empty buffer holds returns what is there, without error. -/
theorem bytesBuffer_Read_short (a : Byte) (t : List Byte) (n : Nat) (h : (a :: t).length < n) :
    bytesBuffer.Read (a :: t) n = ⟨a :: t, Error.nil, []⟩ := by
  have step : bytesBuffer.Read (a :: t) n
      = ⟨(a :: t).take n, Error.nil, (a :: t).drop n⟩ := rfl
  rw [step, List.take_of_length_le (Nat.le_of_lt h), List.drop_of_length_le (Nat.le_of_lt h)]

/-- The loop of `io.ReadFull` stops as soon as the buffer is full. -/
theorem readFullLoop_done {σ : Type} (r : Reader σ) (size fuel : Nat) (s : σ)
    (acc : List Byte) (err : Error) (h : size ≤ acc.length) :
    readFullLoop r size fuel s acc err = some (acc, err, s) := by
  unfold readFullLoop
  have hc : ¬ (acc.length < size ∧ err = Error.nil) := by omega
  simp [hc]

/-- Reading a `uint32` with `binary.Read` from a buffer that starts with a four byte
little-endian field needs one `Read`. -/
theorem binaryReadUint32_bytesBuffer (fuel v : Nat) (t : List Byte) :
    binaryReadUint32 bytesBuffer (fuel + 1) (PutUint32 v ++ t)
      = some (v % 4294967296, Error.nil, t) := by
  have h : readFullLoop bytesBuffer 4 (fuel + 1) (PutUint32 v ++ t) [] Error.nil
      = some (PutUint32 v, Error.nil, t) := by
    rw [readFullLoop]
    simp only [List.length_nil, Nat.sub_zero, bytesBuffer_Read_PutUint32, List.nil_append]
    rw [readFullLoop_done _ _ _ _ _ _ (by simp [PutUint32])]
    simp
  have hl : (PutUint32 v).length = 4 := rfl
  simp [binaryReadUint32, ReadFull, h, Uint32_PutUint32, hl]

/-- The same when the field is all that the buffer holds. -/
theorem binaryReadUint32_bytesBuffer_all (fuel v : Nat) :
    binaryReadUint32 bytesBuffer (fuel + 1) (PutUint32 v)
      = some (v % 4294967296, Error.nil, []) := by
  simpa using binaryReadUint32_bytesBuffer fuel v []

/-- Reading a `uint32` with `binary.Read` from an empty buffer returns `io.EOF`. -/
theorem binaryReadUint32_bytesBuffer_nil (fuel : Nat) :
    binaryReadUint32 bytesBuffer (fuel + 1) [] = some (0, Error.EOF, []) := by
  have h : readFullLoop bytesBuffer 4 (fuel + 1) [] [] Error.nil
      = some ([], Error.EOF, []) := by
    rw [readFullLoop]
    simp only [List.length_nil, Nat.sub_zero, bytesBuffer_Read_nil 4 (by decide)]
    unfold readFullLoop
    simp
  simp [binaryReadUint32, ReadFull, h]

/-! ## What `WritePacket` hands to the writer -/

/-- Below 12 bytes of data the one `Write` call carries the type byte and `0x48` and nothing
else: `binary.Write` rejects the `int` and its error is dropped; the data is not written. -/
theorem WritePacket_logged_small {ω : Type} (writer : Writer ω) (fw : FlateWriter) (w : ω)
    (p : Packet) (hk : p.PacketType ≠ 0x65) (hlen : p.Data.length < 12) :
    p.WritePacket (logged writer) fw (w, [])
      = ((writer.Write w [p.PacketType, 0x48]).err,
          ((writer.Write w [p.PacketType, 0x48]).next, [[p.PacketType, 0x48]])) := by
  simp [Packet.WritePacket, hk, hlen, binaryWrite, logged]

/-- From 12 bytes of data on, with the library compressor, the one `Write` call carries the type
byte, `0x4A` and the four byte count of bytes given to the compressor. -/
theorem WritePacket_logged_large {ω : Type} (writer : Writer ω) (w : ω)
    (p : Packet) (hk : p.PacketType ≠ 0x65) (hlen : 12 ≤ p.Data.length) :
    (p.WritePacket (logged writer) flateWriter (w, [])).2.2
      = [p.PacketType :: 0x4A :: PutUint32 (uint32 p.Data.length)] := by
  have hl : ¬ p.Data.length < 12 := by omega
  by_cases he : (writer.Write w (p.PacketType :: 0x4A :: PutUint32 (uint32 p.Data.length))).err
      = Error.nil
  · simp [Packet.WritePacket, hk, hl, binaryWrite, logged, flateWriter, he]
  · simp [Packet.WritePacket, hk, hl, binaryWrite, logged, flateWriter, he]

/-- Into a `bytes.Buffer`, below 12 bytes of data: the buffer gains the type byte and `0x48`. -/
theorem WritePacket_bufferWriter_small (fw : FlateWriter) (w : List Byte) (p : Packet)
    (hk : p.PacketType ≠ 0x65) (hlen : p.Data.length < 12) :
    p.WritePacket bufferWriter fw w = (Error.nil, w ++ [p.PacketType, 0x48]) := by
  simp [Packet.WritePacket, hk, hlen, binaryWrite, bufferWriter]

/-- Into a `bytes.Buffer`, from 12 bytes of data on: the buffer gains the type byte, `0x4A` and
the four byte uncompressed length. -/
theorem WritePacket_bufferWriter_large (w : List Byte) (p : Packet)
    (hk : p.PacketType ≠ 0x65) (hlen : 12 ≤ p.Data.length) :
    p.WritePacket bufferWriter flateWriter w
      = (Error.nil, w ++ ([p.PacketType, 0x4A] ++ PutUint32 (uint32 p.Data.length))) := by
  have hl : ¬ p.Data.length < 12 := by omega
  simp [Packet.WritePacket, hk, hl, binaryWrite, bufferWriter, flateWriter]

/-- No payload of 12 bytes or more survives a round trip through a `bytes.Buffer`: the reader
finds the end of the stream where the payload should start. -/
theorem roundtrip_large_never (z : FlateReader) (fuel : Nat) (k : Byte) (P : List Byte)
    (hk : k ≠ 0x65) (h12 : 12 ≤ P.length) (hP : P.length < 4294967296) :
    LoadPacket bytesBuffer z (fuel + 1)
        (Packet.WritePacket ⟨k, 0, P, 0⟩ bufferWriter flateWriter []).2
      = some ⟨none, Error.ReadError "failed to read packet: bad data read" Error.EOF, []⟩ := by
  have hlen : P.length % 4294967296 = P.length := Nat.mod_eq_of_lt hP
  have h0 : P.length ≠ 0 := by omega
  rw [WritePacket_bufferWriter_large [] ⟨k, 0, P, 0⟩ hk h12]
  simp [LoadPacket, bytesBuffer_Read_one, binaryReadUint32_bytesBuffer_all, hk, uint32, hlen,
    bytesBuffer_Read_nil P.length h0, newReadError]

/-- No payload below 12 bytes survives a round trip through a `bytes.Buffer`, the empty one
included: the reader finds the end of the stream where the length field should start. -/
theorem roundtrip_small_never (z : FlateReader) (fuel : Nat) (k : Byte) (P : List Byte)
    (hk : k ≠ 0x65) (hlen : P.length < 12) :
    LoadPacket bytesBuffer z (fuel + 1)
        (Packet.WritePacket ⟨k, 0, P, 0⟩ bufferWriter flateWriter []).2
      = some ⟨none, Error.ReadError "failed to read packet: header length" Error.EOF, []⟩ := by
  rw [WritePacket_bufferWriter_small flateWriter [] ⟨k, 0, P, 0⟩ hk hlen]
  simp [LoadPacket, bytesBuffer_Read_one, binaryReadUint32_bytesBuffer_nil, hk, newReadError]

/-- On a `bytes.Reader` the empty raw frame at the end of the data is not decoded: the read
into the empty payload slice returns `io.EOF`. -/
theorem LoadPacket_bytesReader_empty_frame (z : FlateReader) (fuel : Nat) :
    LoadPacket bytesReader z (fuel + 1) [0x66, 0x48, 0, 0, 0, 0]
      = some ⟨none, Error.ReadError "failed to read packet: bad data read" Error.EOF, []⟩ := by
  have h1 : bytesReader.Read [0x66, 0x48, 0, 0, 0, 0] 1 = ⟨[0x66], Error.nil, [0x48, 0, 0, 0, 0]⟩ :=
    rfl
  have h2 : bytesReader.Read [0x48, 0, 0, 0, 0] 1 = ⟨[0x48], Error.nil, [0, 0, 0, 0]⟩ := rfl
  have h3 : binaryReadUint32 bytesReader (fuel + 1) [0, 0, 0, 0] = some (0, Error.nil, []) := by
    have h : readFullLoop bytesReader 4 (fuel + 1) [0, 0, 0, 0] [] Error.nil
        = some ([0, 0, 0, 0], Error.nil, []) := by
      rw [readFullLoop]
      have hr : bytesReader.Read [0, 0, 0, 0] 4 = ⟨[0, 0, 0, 0], Error.nil, []⟩ := rfl
      simp only [List.length_nil, Nat.sub_zero, hr, List.nil_append]
      rw [readFullLoop_done _ _ _ _ _ _ (by simp)]
      simp
    simp [binaryReadUint32, ReadFull, h, Uint32]
  have h4 : bytesReader.Read [] 0 = ⟨[], Error.EOF, []⟩ := rfl
  simp [LoadPacket, h1, h2, h3, h4, newReadError]

/-! ## Claims -/

/-- C1, evaluated at kind 0x66 with twenty bytes 'A': `WritePacket` into an empty
`bytes.Buffer` returns nil and leaves the six bytes 66 4A 14 00 00 00 there (the length field
holds the uncompressed length 20 and no compressed byte follows); `LoadPacket` on these bytes
returns a nil packet and a read error wrapping `io.EOF`, so the payload does not come back. -/
theorem roundtrip_large_payload_lost (z : FlateReader) (fuel : Nat) :
    Packet.WritePacket ⟨0x66, 0, List.replicate 20 0x41, 0⟩ bufferWriter flateWriter []
        = (Error.nil, [0x66, 0x4A, 0x14, 0, 0, 0])
      ∧ LoadPacket bytesBuffer z (fuel + 1)
          (Packet.WritePacket ⟨0x66, 0, List.replicate 20 0x41, 0⟩
            bufferWriter flateWriter []).2
        = some ⟨none,
            Error.ReadError "failed to read packet: bad data read" Error.EOF, []⟩ := by
  have hw : Packet.WritePacket ⟨0x66, 0, List.replicate 20 0x41, 0⟩ bufferWriter flateWriter []
      = (Error.nil, [0x66, 0x4A] ++ PutUint32 20 ++ []) := by decide
  refine ⟨by decide, ?_⟩
  rw [hw]
  simp [LoadPacket, bytesBuffer_Read_one, binaryReadUint32_bytesBuffer_all,
    bytesBuffer_Read_nil, newReadError]

/-- C2, evaluated at kind 0x66 with the three bytes 01 02 03: `WritePacket` into an empty
`bytes.Buffer` returns nil and leaves the two bytes 66 48 there (subtype 0x48, but neither a
length field nor the payload); `LoadPacket` on these bytes returns a nil packet and a read
error for the header length, so the payload does not come back. -/
theorem roundtrip_small_payload_lost (z : FlateReader) (fuel : Nat) :
    Packet.WritePacket ⟨0x66, 0, [1, 2, 3], 0⟩ bufferWriter flateWriter []
        = (Error.nil, [0x66, 0x48])
      ∧ LoadPacket bytesBuffer z (fuel + 1)
          (Packet.WritePacket ⟨0x66, 0, [1, 2, 3], 0⟩ bufferWriter flateWriter []).2
        = some ⟨none,
            Error.ReadError "failed to read packet: header length" Error.EOF, []⟩ := by
  have hw : Packet.WritePacket ⟨0x66, 0, [1, 2, 3], 0⟩ bufferWriter flateWriter []
      = (Error.nil, [0x66, 0x48]) := by decide
  refine ⟨hw, ?_⟩
  rw [hw]
  simp [LoadPacket, bytesBuffer_Read_one, binaryReadUint32_bytesBuffer_nil, newReadError]

/-- C3, evaluated at kind 0x66: for the one byte payload 07 the writer is handed, in one call,
the two bytes 66 48, where the claimed frame is 66 48 01 00 00 00 07; for twenty bytes 'A' it is
handed the six bytes 66 4A 14 00 00 00, a length field of 20 with no payload byte after it. -/
theorem WritePacket_frame_without_payload :
    Packet.WritePacket ⟨0x66, 0, [7], 0⟩ (logged bufferWriter) flateWriter ([], [])
        = (Error.nil, ([0x66, 0x48], [[0x66, 0x48]]))
      ∧ [0x66, 0x48] ≠ [0x66, 0x48] ++ PutUint32 1 ++ [7]
      ∧ Packet.WritePacket ⟨0x66, 0, List.replicate 20 0x41, 0⟩ (logged bufferWriter)
          flateWriter ([], [])
        = (Error.nil, ([0x66, 0x4A, 0x14, 0, 0, 0], [[0x66, 0x4A, 0x14, 0, 0, 0]]))
      ∧ Uint32 [0x14, 0, 0, 0] = 20 := by
  refine ⟨by decide, by decide, by decide, by decide⟩

/-- C4: for a packet of type 0x65, whatever its other fields, and for every writer and
compressor, `WritePacket` makes one `Write` call, with the single byte 0x65, and returns the
error of that call. -/
theorem WritePacket_heartbeat {ω : Type} (writer : Writer ω) (fw : FlateWriter) (w : ω)
    (p : Packet) (hk : p.PacketType = 0x65) :
    p.WritePacket (logged writer) fw (w, [])
      = ((writer.Write w [0x65]).err, ((writer.Write w [0x65]).next, [[0x65]])) := by
  simp [Packet.WritePacket, hk, logged]

/-- A heartbeat packet with a stale subtype, data and data type, written to a `bytes.Buffer`. -/
theorem WritePacket_heartbeat_witness :
    (⟨0x65, 0x4A, [1, 2, 3], 9⟩ : Packet).PacketType = 0x65
      ∧ Packet.WritePacket ⟨0x65, 0x4A, [1, 2, 3], 9⟩ (logged bufferWriter) flateWriter ([], [])
        = (Error.nil, ([0x65], [[0x65]])) :=
  ⟨rfl, WritePacket_heartbeat bufferWriter flateWriter [] ⟨0x65, 0x4A, [1, 2, 3], 9⟩ rfl⟩

/-- C8: for a kind other than 0x65, any subtype and any declared length `L` below 2^32, when
the stream holds fewer than `L` bytes after the six header bytes, `LoadPacket` returns a nil
packet and a non-nil error; whatever part of the payload was read is not in the result. -/
theorem LoadPacket_truncated (z : FlateReader) (fuel : Nat) (k sub : Byte) (L : Nat)
    (T : List Byte) (hk : k ≠ 0x65) (hL : L < 4294967296) (hT : T.length < L) :
    ∃ e : Error, e ≠ Error.nil
      ∧ LoadPacket bytesBuffer z (fuel + 1) ([k, sub] ++ PutUint32 L ++ T)
        = some ⟨none, e, []⟩ := by
  have hlen : L % 4294967296 = L := Nat.mod_eq_of_lt hL
  cases T with
  | nil =>
    refine ⟨Error.ReadError "failed to read packet: bad data read" Error.EOF, by simp, ?_⟩
    have hL0 : L ≠ 0 := by
      intro h
      simp [h] at hT
    simp [LoadPacket, bytesBuffer_Read_one, binaryReadUint32_bytesBuffer_all, hk, hlen,
      bytesBuffer_Read_nil L hL0, newReadError]
  | cons a t =>
    refine ⟨Error.errorString "failed to read initial packet data: length not met",
      by simp, ?_⟩
    have hne : ¬ (t.length + 1 = L) := by
      simp at hT
      omega
    simp [LoadPacket, bytesBuffer_Read_one, binaryReadUint32_bytesBuffer, hk, hlen,
      bytesBuffer_Read_short a t L hT, hne]

/-- A frame that declares three payload bytes and holds two. -/
theorem LoadPacket_truncated_witness :
    ((0x66 : Byte) ≠ 0x65 ∧ 3 < 4294967296 ∧ ([7, 8] : List Byte).length < 3)
      ∧ ∃ e : Error, e ≠ Error.nil
        ∧ LoadPacket bytesBuffer flateReaderCutShort 1 [0x66, 0x48, 3, 0, 0, 0, 7, 8]
          = some ⟨none, e, []⟩ :=
  ⟨⟨by decide, by decide, by decide⟩,
    LoadPacket_truncated flateReaderCutShort 0 0x66 0x48 3 [7, 8]
      (by decide) (by decide) (by decide)⟩

/-- C10: for a packet whose type is not 0x65, with the library compressor and for every
writer, `WritePacket` makes one `Write` call whose first byte is the type and whose second byte
is 0x48 when the data has fewer than 12 bytes and 0x4A otherwise. -/
theorem WritePacket_subtype_byte {ω : Type} (writer : Writer ω) (w : ω) (p : Packet)
    (hk : p.PacketType ≠ 0x65) :
    ∃ tail : List Byte,
      (p.WritePacket (logged writer) flateWriter (w, [])).2.2
        = [p.PacketType :: (if p.Data.length < 12 then 0x48 else 0x4A) :: tail] := by
  by_cases hlen : p.Data.length < 12
  · refine ⟨[], ?_⟩
    rw [WritePacket_logged_small writer flateWriter w p hk hlen]
    simp [hlen]
  · refine ⟨PutUint32 (uint32 p.Data.length), ?_⟩
    rw [WritePacket_logged_large writer w p hk (by omega)]
    simp [hlen]

/-- A three byte packet that was stored with subtype 0x49 is written with subtype 0x48. -/
theorem WritePacket_subtype_byte_witness :
    (⟨0x66, 0x49, [1, 2, 3], 0⟩ : Packet).PacketType ≠ 0x65
      ∧ ∃ tail : List Byte,
        (Packet.WritePacket ⟨0x66, 0x49, [1, 2, 3], 0⟩ (logged bufferWriter) flateWriter
            ([], [])).2.2
          = [0x66 :: 0x48 :: tail] :=
  ⟨by decide, WritePacket_subtype_byte bufferWriter [] ⟨0x66, 0x49, [1, 2, 3], 0⟩ (by decide)⟩

/-! ## Further lemmas -/

/-- The four bytes of `PutUint32` depend on the value modulo 2^32 only. -/
theorem PutUint32_uint32 (n : Nat) : PutUint32 (uint32 n) = PutUint32 n := by
  have h0 : n % 4294967296 % 256 = n % 256 := by omega
  have h1 : n % 4294967296 / 256 % 256 = n / 256 % 256 := by omega
  have h2 : n % 4294967296 / 65536 % 256 = n / 65536 % 256 := by omega
  have h3 : n % 4294967296 / 16777216 % 256 = n / 16777216 % 256 := by omega
  simp [PutUint32, uint32, byte, h0, h1, h2, h3]

/-- On the compressed path every error that `WritePacket` makes itself is built by
`newWriteError`, and so is a `ReadError` value: whatever the writer and the compressor do, a
non-nil result is never a `WriteError` made by the package. -/
theorem WritePacket_compressed_error_shape {ω : Type} (writer : Writer ω) (fw : FlateWriter)
    (w : ω) (p : Packet) (hk : p.PacketType ≠ 0x65) (hlen : 12 ≤ p.Data.length)
    (herr : (p.WritePacket writer fw w).1 ≠ Error.nil) :
    ∃ d e, (p.WritePacket writer fw w).1 = Error.ReadError d e := by
  have hl : ¬ p.Data.length < 12 := by omega
  unfold Packet.WritePacket at herr ⊢
  simp only [hk, hl, if_false] at herr ⊢
  by_cases h1 : fw.NewWriter = Error.nil
  · by_cases h2 : (fw.Write p.Data).2 = Error.nil
    · by_cases h3 : (writer.Write w
          (p.PacketType :: 0x4A :: PutUint32 (uint32 (fw.Write p.Data).1))).err = Error.nil
      · simp [h1, h2, h3, binaryWrite] at herr
      · simp [h1, h2, h3, binaryWrite, newWriteError]
    · simp [h1, h2, newWriteError]
  · simp [h1, newWriteError]

/-! ## Claims, continued -/

/-- C11: two packets with the same type and the same data, whatever their stored subtype and
data type, give the same call of `WritePacket`: for every writer and compressor the returned
error, the writer state and the list of byte slices handed to the writer are the same. -/
theorem WritePacket_ignores_stored_subtype {ω : Type} (writer : Writer ω) (fw : FlateWriter)
    (w : ω) (p q : Packet) (hT : p.PacketType = q.PacketType) (hD : p.Data = q.Data) :
    p.WritePacket (logged writer) fw (w, []) = q.WritePacket (logged writer) fw (w, []) := by
  simp [Packet.WritePacket, hT, hD]

/-- Two packets read with subtype 0x4A and 0x49 and different data types, rewritten with
subtype 0x48. -/
theorem WritePacket_ignores_stored_subtype_witness :
    ((⟨0x66, 0x4A, [1, 2, 3], 1⟩ : Packet).PacketType
          = (⟨0x66, 0x49, [1, 2, 3], 7⟩ : Packet).PacketType
        ∧ (⟨0x66, 0x4A, [1, 2, 3], 1⟩ : Packet).Data
          = (⟨0x66, 0x49, [1, 2, 3], 7⟩ : Packet).Data)
      ∧ Packet.WritePacket ⟨0x66, 0x4A, [1, 2, 3], 1⟩ (logged bufferWriter) flateWriter
          ([], [])
        = Packet.WritePacket ⟨0x66, 0x49, [1, 2, 3], 7⟩ (logged bufferWriter) flateWriter
          ([], [])
      ∧ Packet.WritePacket ⟨0x66, 0x49, [1, 2, 3], 7⟩ (logged bufferWriter) flateWriter
          ([], [])
        = (Error.nil, ([0x66, 0x48], [[0x66, 0x48]])) :=
  ⟨⟨rfl, rfl⟩,
    WritePacket_ignores_stored_subtype bufferWriter flateWriter []
      ⟨0x66, 0x4A, [1, 2, 3], 1⟩ ⟨0x66, 0x49, [1, 2, 3], 7⟩ rfl rfl,
    by decide⟩

/-- C12, evaluated at kind 0x66 with twelve zero bytes and a writer whose `Write` fails with
an error `e` (here `other 1`): `WritePacket` returns the `ReadError` value with the context string
"failed to flate data to the stream; this is fatal to the stream" and cause `e`; this is not
the `WriteError` value with that context string and cause. -/
theorem WritePacket_failure_is_ReadError :
    Packet.WritePacket ⟨0x66, 0, List.replicate 12 0, 0⟩ (failingWriter (Error.other 1))
        flateWriter ()
      = (Error.ReadError "failed to flate data to the stream; this is fatal to the stream"
          (Error.other 1), ())
    ∧ Error.ReadError "failed to flate data to the stream; this is fatal to the stream"
        (Error.other 1)
      ≠ Error.WriteError "failed to flate data to the stream; this is fatal to the stream"
        (Error.other 1) := by
  refine ⟨by decide, by simp⟩

/-! ## The outcomes of `LoadPacket` -/

/-- Every way in which `LoadPacket` returns, for any reader and decompressor: a nil packet with
one of the six errors of the reading stages; the heartbeat packet; or a packet made from the
header bytes, with the outcome of the subtype switch. -/
theorem LoadPacket_inv {σ : Type} (reader : Reader σ) (z : FlateReader) (fuel : Nat)
    (s : σ) (r : LoadResult σ) (h : LoadPacket reader z fuel s = some r) :
    (r.packet = none ∧
      ((∃ e, r.err = Error.ReadError "failed to read packet: header type" e)
        ∨ r.err = Error.errorString
            "failed to read initial header byte, timeout or other undisclosed error hit"
        ∨ (∃ e, r.err = Error.ReadError "failed to read packet: header subtype" e)
        ∨ (∃ e, r.err = Error.ReadError "failed to read packet: header length" e)
        ∨ (∃ e, r.err = Error.ReadError "failed to read packet: bad data read" e)
        ∨ r.err = Error.errorString "failed to read initial packet data: length not met"))
    ∨ (headerType reader s = 0x65 ∧ r.packet = some ⟨0x65, 0, [], 0⟩ ∧ r.err = Error.nil)
    ∨ (headerType reader s ≠ 0x65 ∧ ∃ L s2 data,
        headerLength reader fuel s = some (L, Error.nil, s2)
        ∧ data.length ≤ L
        ∧ r.packet = some ⟨headerType reader s, headerSubType reader s, data, 0⟩
        ∧ ((headerSubType reader s = 0x48 ∧ data.length = L
              ∧ data = (reader.Read s2 L).data ∧ r.err = Error.nil)
          ∨ (headerSubType reader s = 0x49 ∧ data = []
              ∧ r.err = Error.ReadError "unable to create lzh reader; not yet implemented"
                  Error.nil)
          ∨ (headerSubType reader s = 0x4A
              ∧ ((data = [] ∧ ∃ e, e ≠ Error.nil
                    ∧ r.err = Error.ReadError "failed to decompress flate data" e)
                ∨ r.err = Error.nil))
          ∨ (headerSubType reader s ≠ 0x48 ∧ headerSubType reader s ≠ 0x49
              ∧ headerSubType reader s ≠ 0x4A ∧ data = [] ∧ r.err = Error.nil))) := by
  have d48 : ¬ ((0x49 : Byte) = 0x48) := by decide
  have d4A : ¬ ((0x4A : Byte) = 0x48) := by decide
  have d4B : ¬ ((0x4A : Byte) = 0x49) := by decide
  by_cases e0 : (reader.Read s 1).err = Error.nil
  swap
  · simp only [LoadPacket, e0, newReadError, ne_eq, not_true_eq_false, not_false_eq_true, if_true, if_false,
      Option.some.injEq, reduceCtorEq] at h
    subst h
    simp
  by_cases n0 : (reader.Read s 1).data.length = 1
  swap
  · simp only [LoadPacket, e0, n0, ne_eq, not_true_eq_false, not_false_eq_true, if_true, if_false,
      Option.some.injEq, reduceCtorEq] at h
    subst h
    simp
  by_cases kT : headerType reader s = 0x65
  · have k : (reader.Read s 1).data.getD 0 0 = 0x65 := kT
    simp only [LoadPacket, e0, n0, k, ne_eq, not_true_eq_false, not_false_eq_true, if_true, if_false,
      Option.some.injEq, reduceCtorEq] at h
    subst h
    simp [kT]
  have k : ¬ (reader.Read s 1).data.getD 0 0 = 0x65 := kT
  by_cases e1 : (reader.Read (reader.Read s 1).next 1).err = Error.nil
  swap
  · simp only [LoadPacket, e0, n0, k, e1, newReadError, ne_eq, not_true_eq_false, not_false_eq_true, if_true, if_false,
      Option.some.injEq, reduceCtorEq] at h
    subst h
    simp
  by_cases n1 : (reader.Read (reader.Read s 1).next 1).data.length = 1
  swap
  · simp only [LoadPacket, e0, n0, k, e1, n1, ne_eq, not_true_eq_false, not_false_eq_true, if_true, if_false,
      Option.some.injEq, reduceCtorEq] at h
    subst h
    simp
  have hTy : (reader.Read s 1).data.getD 0 0 = headerType reader s := rfl
  have hSub : (reader.Read (reader.Read s 1).next 1).data.getD 0 0 = headerSubType reader s := rfl
  cases hb : binaryReadUint32 reader fuel (reader.Read (reader.Read s 1).next 1).next with
  | none => simp only [LoadPacket, e0, n0, k, e1, n1, hb, ne_eq, not_true_eq_false, not_false_eq_true, if_true, if_false,
      Option.some.injEq, reduceCtorEq] at h
  | some v =>
    obtain ⟨L, e, s2⟩ := v
    by_cases e2 : e = Error.nil
    swap
    · simp only [LoadPacket, e0, n0, k, e1, n1, hb, e2, newReadError, ne_eq, not_true_eq_false, not_false_eq_true, if_true, if_false,
      Option.some.injEq, reduceCtorEq] at h
      subst h
      simp
    subst e2
    by_cases e3 : (reader.Read s2 L).err = Error.nil
    swap
    · simp only [LoadPacket, e0, n0, k, e1, n1, hb, e3, newReadError, ne_eq, not_true_eq_false, not_false_eq_true, if_true, if_false,
      Option.some.injEq, reduceCtorEq] at h
      subst h
      simp
    by_cases n3 : (reader.Read s2 L).data.length = L
    swap
    · simp only [LoadPacket, e0, n0, k, e1, n1, hb, e3, n3, ne_eq, not_true_eq_false, not_false_eq_true, if_true, if_false,
      Option.some.injEq, reduceCtorEq] at h
      subst h
      simp
    right; right
    refine ⟨kT, L, s2, ?_⟩
    simp only [LoadPacket, e0, n0, k, e1, n1, hb, e3, n3, ne_eq, not_true_eq_false, not_false_eq_true, if_true, if_false,
      Option.some.injEq, reduceCtorEq] at h
    rw [hTy, hSub] at h
    by_cases t48 : headerSubType reader s = 0x48
    · simp only [t48, ne_eq, not_true_eq_false, not_false_eq_true, if_true, if_false,
      Option.some.injEq, reduceCtorEq] at h
      subst h
      exact ⟨(reader.Read s2 L).data, hb, by omega, by simp [t48], Or.inl ⟨t48, n3, rfl, rfl⟩⟩
    by_cases t49 : headerSubType reader s = 0x49
    · simp only [t49, d48, decompressPacket0x49, newReadError, ne_eq, not_true_eq_false, not_false_eq_true, if_true, if_false,
      Option.some.injEq, reduceCtorEq] at h
      subst h
      exact ⟨[], hb, by simp, by simp [t49], Or.inr (Or.inl ⟨t49, rfl, rfl⟩)⟩
    by_cases t4A : headerSubType reader s = 0x4A
    · by_cases ez : (z.Read (reader.Read s2 L).data L).2 = Error.nil
      · simp only [t4A, d4A, d4B, decompressPacket0x4A, ez, ne_eq, not_true_eq_false, not_false_eq_true, if_true, if_false,
      Option.some.injEq, reduceCtorEq] at h
        subst h
        exact ⟨(z.Read (reader.Read s2 L).data L).1, hb, z.Read_le _ _, by simp [t4A],
          Or.inr (Or.inr (Or.inl ⟨t4A, Or.inr rfl⟩))⟩
      · simp only [t4A, d4A, d4B, decompressPacket0x4A, ez, newReadError, ne_eq, not_true_eq_false, not_false_eq_true, if_true, if_false,
      Option.some.injEq, reduceCtorEq] at h
        subst h
        exact ⟨[], hb, by simp, by simp [t4A],
          Or.inr (Or.inr (Or.inl ⟨t4A, Or.inl ⟨rfl, _, ez, rfl⟩⟩))⟩
    · simp only [t48, t49, t4A, ne_eq, not_true_eq_false, not_false_eq_true, if_true, if_false,
      Option.some.injEq, reduceCtorEq] at h
      subst h
      exact ⟨[], hb, by simp, rfl, Or.inr (Or.inr (Or.inr ⟨t48, t49, t4A, rfl, rfl⟩))⟩

/-! ## Claims on the outcomes -/

/-- C13, evaluated on two readers that return a short read without an error: one whose first
`Read` returns no byte, and one whose first `Read` returns the type byte 0x66 and whose second
`Read` returns no byte. The failure at the header type stage and the failure at the header
subtype stage are the same error value, with the same text. -/
theorem LoadPacket_short_read_same_text (z : FlateReader) (fuel : Nat) :
    LoadPacket scripted z fuel [([], Error.nil)]
        = some ⟨none, Error.errorString
            "failed to read initial header byte, timeout or other undisclosed error hit", []⟩
      ∧ LoadPacket scripted z fuel [([0x66], Error.nil), ([], Error.nil)]
        = some ⟨none, Error.errorString
            "failed to read initial header byte, timeout or other undisclosed error hit", []⟩ :=
  ⟨rfl, rfl⟩

/-- C14, evaluated at the frame 66 4A 05 00 00 00 73 74 C4 04 00, whose five payload bytes are
a DEFLATE stream of twenty bytes 'A': whatever the decompressor returns from its one `Read`
into the five byte buffer, `LoadPacket` returns a packet whose data has at most five bytes, so
it is not the twenty bytes 'A'. -/
theorem LoadPacket_compressed_truncated (z : FlateReader) (fuel : Nat) :
    ∃ (data : List Byte) (err : Error),
      LoadPacket bytesBuffer z (fuel + 1)
          [0x66, 0x4A, 5, 0, 0, 0, 0x73, 0x74, 0xC4, 0x04, 0x00]
        = some ⟨some ⟨0x66, 0x4A, data, 0⟩, err, []⟩
      ∧ data.length ≤ 5 ∧ data ≠ List.replicate 20 0x41 := by
  have hr : binaryReadUint32 bytesBuffer (fuel + 1) [5, 0, 0, 0, 0x73, 0x74, 0xC4, 0x04, 0x00]
      = some (5, Error.nil, [0x73, 0x74, 0xC4, 0x04, 0x00]) :=
    binaryReadUint32_bytesBuffer fuel 5 [0x73, 0x74, 0xC4, 0x04, 0x00]
  have h3 : bytesBuffer.Read [0x73, 0x74, 0xC4, 0x04, 0x00] 5
      = ⟨[0x73, 0x74, 0xC4, 0x04, 0x00], Error.nil, []⟩ := rfl
  have hlen : ∀ d : List Byte, d.length ≤ 5 → d ≠ List.replicate 20 0x41 := by
    intro d hd hEq
    rw [hEq] at hd
    simp at hd
  by_cases ez : (z.Read [0x73, 0x74, 0xC4, 0x04, 0x00] 5).2 = Error.nil
  · refine ⟨(z.Read [0x73, 0x74, 0xC4, 0x04, 0x00] 5).1, Error.nil, ?_, z.Read_le _ _,
      hlen _ (z.Read_le _ _)⟩
    simp [LoadPacket, bytesBuffer_Read_one, hr, h3, decompressPacket0x4A, ez]
  · refine ⟨[], Error.ReadError "failed to decompress flate data"
      (z.Read [0x73, 0x74, 0xC4, 0x04, 0x00] 5).2, ?_, by simp, hlen _ (by simp)⟩
    simp [LoadPacket, bytesBuffer_Read_one, hr, h3, decompressPacket0x4A, ez, newReadError]

/-- C15, evaluated at kind 0x66 with the three bytes 01 02 03 and a `bytes.Buffer` as writer:
the step that writes the length field into the frame buffer fails with a non-nil error, and
`WritePacket` returns nil. -/
theorem WritePacket_drops_length_error :
    (binaryWrite [0x66, 0x48] (BinaryData.int ([1, 2, 3] : List Byte).length)).2
        = Error.errorString "binary.Write: invalid type int"
      ∧ (binaryWrite [0x66, 0x48] (BinaryData.int ([1, 2, 3] : List Byte).length)).2 ≠ Error.nil
      ∧ Packet.WritePacket ⟨0x66, 0, [1, 2, 3], 0⟩ bufferWriter flateWriter []
        = (Error.nil, [0x66, 0x48]) := by
  refine ⟨rfl, by decide, by decide⟩

/-- C16: for every reader, decompressor and fuel, when `LoadPacket` returns a packet, its
`DataType` is 0, whatever its data. -/
theorem LoadPacket_DataType_zero {σ : Type} (reader : Reader σ) (z : FlateReader) (fuel : Nat)
    (s : σ) (r : LoadResult σ) (pkt : Packet) (h : LoadPacket reader z fuel s = some r)
    (hp : r.packet = some pkt) : pkt.DataType = 0 := by
  rcases LoadPacket_inv reader z fuel s r h with ⟨hn, _⟩ | ⟨_, hb, _⟩ | ⟨_, L, s2, data, _, _, hf, _⟩
  · rw [hn] at hp
    cases hp
  · rw [hb] at hp
    cases hp
    rfl
  · rw [hf] at hp
    cases hp
    rfl

/-- A raw frame whose data starts with the byte 07 is loaded with `DataType` 0. -/
theorem LoadPacket_DataType_zero_witness :
    (LoadPacket bytesBuffer flateReaderCutShort 1 [0x66, 0x48, 2, 0, 0, 0, 7, 8]
        = some ⟨some ⟨0x66, 0x48, [7, 8], 0⟩, Error.nil, []⟩
      ∧ (⟨some ⟨0x66, 0x48, [7, 8], 0⟩, Error.nil, []⟩ : LoadResult (List Byte)).packet
        = some ⟨0x66, 0x48, [7, 8], 0⟩)
      ∧ (⟨0x66, 0x48, [7, 8], 0⟩ : Packet).DataType = 0 :=
  ⟨⟨rfl, rfl⟩,
    LoadPacket_DataType_zero bytesBuffer flateReaderCutShort 1 [0x66, 0x48, 2, 0, 0, 0, 7, 8]
      ⟨some ⟨0x66, 0x48, [7, 8], 0⟩, Error.nil, []⟩ ⟨0x66, 0x48, [7, 8], 0⟩ rfl rfl⟩

/-- C17: with the library compressor and for every writer, two packets with the same type and
the same data length give the same call of `WritePacket`, the slices handed to the writer
included; there is one such slice and it has at most six bytes; for a type other than 0x65 and
at least 12 bytes of data it is the type, 0x4A and the little-endian length of the data. -/
theorem WritePacket_content_not_written {ω : Type} (writer : Writer ω) (w : ω) (p q : Packet)
    (hT : p.PacketType = q.PacketType) (hL : p.Data.length = q.Data.length) :
    p.WritePacket (logged writer) flateWriter (w, [])
        = q.WritePacket (logged writer) flateWriter (w, [])
      ∧ (∃ bs : List Byte, bs.length ≤ 6
          ∧ (p.WritePacket (logged writer) flateWriter (w, [])).2.2 = [bs])
      ∧ (p.PacketType ≠ 0x65 → 12 ≤ p.Data.length →
          (p.WritePacket (logged writer) flateWriter (w, [])).2.2
            = [[p.PacketType, 0x4A] ++ PutUint32 p.Data.length]) := by
  refine ⟨?_, ?_, ?_⟩
  · simp [Packet.WritePacket, flateWriter, hT, hL]
  · by_cases hk : p.PacketType = 0x65
    · refine ⟨[0x65], by simp, ?_⟩
      simp [Packet.WritePacket, hk, logged]
    · by_cases hlen : p.Data.length < 12
      · refine ⟨[p.PacketType, 0x48], by simp, ?_⟩
        rw [WritePacket_logged_small writer flateWriter w p hk hlen]
      · refine ⟨p.PacketType :: 0x4A :: PutUint32 (uint32 p.Data.length), by simp [PutUint32], ?_⟩
        exact WritePacket_logged_large writer w p hk (by omega)
  · intro hk hlen
    rw [WritePacket_logged_large writer w p hk hlen, PutUint32_uint32]
    rfl

/-- Two packets of sixteen bytes with different content: both calls hand the writer the six
bytes 66 4A 10 00 00 00. -/
theorem WritePacket_content_not_written_witness :
    ((⟨0x66, 0, List.replicate 16 0x41, 0⟩ : Packet).PacketType
          = (⟨0x66, 0, List.replicate 16 0x42, 0⟩ : Packet).PacketType
        ∧ (⟨0x66, 0, List.replicate 16 0x41, 0⟩ : Packet).Data.length
          = (⟨0x66, 0, List.replicate 16 0x42, 0⟩ : Packet).Data.length)
      ∧ (Packet.WritePacket ⟨0x66, 0, List.replicate 16 0x41, 0⟩ (logged bufferWriter)
            flateWriter ([], [])
          = Packet.WritePacket ⟨0x66, 0, List.replicate 16 0x42, 0⟩ (logged bufferWriter)
            flateWriter ([], []))
      ∧ (Packet.WritePacket ⟨0x66, 0, List.replicate 16 0x42, 0⟩ (logged bufferWriter)
            flateWriter ([], [])).2.2 = [[0x66, 0x4A, 0x10, 0, 0, 0]] :=
  ⟨⟨rfl, rfl⟩,
    (WritePacket_content_not_written bufferWriter []
      ⟨0x66, 0, List.replicate 16 0x41, 0⟩ ⟨0x66, 0, List.replicate 16 0x42, 0⟩ rfl rfl).1,
    by decide⟩

/-! ## The bound on the data -/

/-- After a `Read`, a `bytes.Buffer` holds what it held before without the first `n` bytes. -/
theorem bytesBuffer_Read_next (s : List Byte) (n : Nat) :
    (bytesBuffer.Read s n).next = s.drop n := by
  cases s with
  | nil => by_cases h : n = 0 <;> simp [bytesBuffer, h]
  | cons a t => rfl

/-- The loop of `io.ReadFull` stops as soon as a `Read` has returned an error. -/
theorem readFullLoop_err {σ : Type} (r : Reader σ) (size fuel : Nat) (s : σ)
    (acc : List Byte) (err : Error) (h : err ≠ Error.nil) :
    readFullLoop r size fuel s acc err = some (acc, err, s) := by
  unfold readFullLoop
  have hc : ¬ (acc.length < size ∧ err = Error.nil) := fun hh => h hh.2
  simp [hc]

/-- On a `bytes.Buffer` that holds one to three bytes, `binary.Read` of a `uint32` does not
return nil: the second `Read` of `io.ReadFull` finds the end of the stream. -/
theorem binaryReadUint32_bytesBuffer_short (fuel : Nat) (a : Byte) (t : List Byte)
    (hlen : (a :: t).length < 4) (L : Nat) (s2 : List Byte) :
    binaryReadUint32 bytesBuffer fuel (a :: t) ≠ some (L, Error.nil, s2) := by
  intro h
  have ht : t.length < 3 := by
    simp only [List.length_cons] at hlen
    omega
  have ht2 : ¬ 3 ≤ t.length := by omega
  cases fuel with
  | zero => simp [binaryReadUint32, ReadFull, readFullLoop] at h
  | succ fuel =>
    have h1 : readFullLoop bytesBuffer 4 (fuel + 1) (a :: t) [] Error.nil
        = readFullLoop bytesBuffer 4 fuel [] (a :: t) Error.nil := by
      rw [readFullLoop]
      simp only [List.length_nil, Nat.sub_zero, bytesBuffer_Read_short a t 4 hlen,
        List.nil_append]
      simp
    cases fuel with
    | zero =>
      have h2 : readFullLoop bytesBuffer 4 0 [] (a :: t) Error.nil = none := by
        rw [readFullLoop]
        simp [ht]
      simp [binaryReadUint32, ReadFull, h1, h2] at h
    | succ fuel =>
      have hne : 4 - (a :: t).length ≠ 0 := by omega
      have h2 : readFullLoop bytesBuffer 4 (fuel + 1) [] (a :: t) Error.nil
          = some (a :: t, Error.EOF, []) := by
        rw [readFullLoop]
        simp only [hlen, true_and, if_true, bytesBuffer_Read_nil _ hne, List.append_nil]
        exact readFullLoop_err _ _ _ _ _ _ (by simp)
      simp [binaryReadUint32, ReadFull, h1, h2, ht2] at h

/-- On a `bytes.Buffer`, `binary.Read` of a `uint32` returns no error only when four bytes are
there, and then the value is made of these four bytes. -/
theorem binaryReadUint32_bytesBuffer_inv (fuel : Nat) (t : List Byte) (L : Nat)
    (s2 : List Byte) (h : binaryReadUint32 bytesBuffer fuel t = some (L, Error.nil, s2)) :
    L = Uint32 (t.take 4) ∧ s2 = t.drop 4 := by
  match t, h with
  | [], h =>
    cases fuel with
    | zero => simp [binaryReadUint32, ReadFull, readFullLoop] at h
    | succ fuel =>
      rw [binaryReadUint32_bytesBuffer_nil] at h
      simp at h
  | [a], h => exact absurd h (binaryReadUint32_bytesBuffer_short fuel a [] (by simp) L s2)
  | [a, b], h => exact absurd h (binaryReadUint32_bytesBuffer_short fuel a [b] (by simp) L s2)
  | [a, b, c], h =>
    exact absurd h (binaryReadUint32_bytesBuffer_short fuel a [b, c] (by simp) L s2)
  | a :: b :: c :: d :: t, h =>
    cases fuel with
    | zero => simp [binaryReadUint32, ReadFull, readFullLoop] at h
    | succ fuel =>
      have hr : bytesBuffer.Read (a :: b :: c :: d :: t) 4 = ⟨[a, b, c, d], Error.nil, t⟩ := rfl
      have h1 : readFullLoop bytesBuffer 4 (fuel + 1) (a :: b :: c :: d :: t) [] Error.nil
          = some ([a, b, c, d], Error.nil, t) := by
        rw [readFullLoop]
        simp only [List.length_nil, Nat.sub_zero, hr, List.nil_append]
        rw [readFullLoop_done _ _ _ _ _ _ (by simp)]
        simp
      simp [binaryReadUint32, ReadFull, h1] at h
      obtain ⟨hL, hs⟩ := h
      exact ⟨by simp [← hL], by simp [← hs]⟩
/-- For every reader: when `LoadPacket` returns a packet that is not a heartbeat, with or
without an error beside it, the `binary.Read` of the length field has returned some `L` without
error, the data has at most `L` bytes, exactly `L` for subtype 0x48 and none for a subtype
other than 0x48 and 0x4A. -/
theorem LoadPacket_data_le_headerLength {σ : Type} (reader : Reader σ) (z : FlateReader)
    (fuel : Nat) (s : σ) (r : LoadResult σ) (pkt : Packet)
    (h : LoadPacket reader z fuel s = some r)
    (hp : r.packet = some pkt) (hk : pkt.PacketType ≠ 0x65) :
    ∃ L s2, headerLength reader fuel s = some (L, Error.nil, s2)
      ∧ pkt.Data.length ≤ L
      ∧ (pkt.PacketSubType = 0x48 → pkt.Data.length = L)
      ∧ (pkt.PacketSubType ≠ 0x48 → pkt.PacketSubType ≠ 0x4A → pkt.Data = []) := by
  rcases LoadPacket_inv reader z fuel s r h with
    ⟨hn, _⟩ | ⟨_, hb, _⟩ | ⟨_, L, s2, data, hL, hle, hf, hcase⟩
  · rw [hn] at hp
    cases hp
  · rw [hb] at hp
    cases hp
    exact absurd rfl hk
  · rw [hf] at hp
    cases hp
    refine ⟨L, s2, hL, hle, ?_, ?_⟩
    · intro h48
      rcases hcase with ⟨_, hlen, _, _⟩ | ⟨h49, _, _⟩ | ⟨h4A, _⟩ | ⟨n48, _⟩
      · exact hlen
      · simp only [] at h48
        rw [h49] at h48
        exact absurd h48 (by decide)
      · simp only [] at h48
        rw [h4A] at h48
        exact absurd h48 (by decide)
      · exact absurd h48 n48
    · intro n48 n4A
      rcases hcase with ⟨h48, _⟩ | ⟨_, hd, _⟩ | ⟨h4A, _⟩ | ⟨_, _, _, hd, _⟩
      · exact absurd h48 n48
      · exact hd
      · exact absurd h4A n4A
      · exact hd

/-- C18: on a stream (a `bytes.Buffer`) from which `LoadPacket` returns a packet that is not a
heartbeat, as it does whenever it succeeds on such a frame, the data has at most as many bytes
as the length field declares, which is the little-endian value of the bytes 2 to 5 of the
stream: exactly as many for subtype 0x48, and none for a subtype other than 0x48 and 0x4A. -/
theorem LoadPacket_data_bounded (z : FlateReader) (fuel : Nat) (stream : List Byte)
    (r : LoadResult (List Byte)) (pkt : Packet)
    (h : LoadPacket bytesBuffer z fuel stream = some r)
    (hp : r.packet = some pkt) (hk : pkt.PacketType ≠ 0x65) :
    pkt.Data.length ≤ Uint32 ((stream.drop 2).take 4)
      ∧ (pkt.PacketSubType = 0x48 → pkt.Data.length = Uint32 ((stream.drop 2).take 4))
      ∧ (pkt.PacketSubType ≠ 0x48 → pkt.PacketSubType ≠ 0x4A → pkt.Data = []) := by
  obtain ⟨L, s2, hL, hle, h48, hother⟩ :=
    LoadPacket_data_le_headerLength bytesBuffer z fuel stream r pkt h hp hk
  have hst : (bytesBuffer.Read (bytesBuffer.Read stream 1).next 1).next = stream.drop 2 := by
    rw [bytesBuffer_Read_next, bytesBuffer_Read_next, List.drop_drop]
  unfold headerLength at hL
  rw [hst] at hL
  have hv := (binaryReadUint32_bytesBuffer_inv fuel (stream.drop 2) L s2 hL).1
  rw [← hv]
  exact ⟨hle, h48, hother⟩

/-- A raw frame that declares two bytes and carries the two bytes 07 08. -/
theorem LoadPacket_data_bounded_witness :
    (LoadPacket bytesBuffer flateReaderCutShort 1 [0x66, 0x48, 2, 0, 0, 0, 7, 8]
        = some ⟨some ⟨0x66, 0x48, [7, 8], 0⟩, Error.nil, []⟩
      ∧ (⟨0x66, 0x48, [7, 8], 0⟩ : Packet).PacketType ≠ 0x65)
      ∧ ([7, 8] : List Byte).length ≤ Uint32 [2, 0, 0, 0]
      ∧ Uint32 [2, 0, 0, 0] = 2 :=
  ⟨⟨rfl, by decide⟩,
    (LoadPacket_data_bounded flateReaderCutShort 1 [0x66, 0x48, 2, 0, 0, 0, 7, 8]
      ⟨some ⟨0x66, 0x48, [7, 8], 0⟩, Error.nil, []⟩ ⟨0x66, 0x48, [7, 8], 0⟩
      rfl rfl (by decide)).1,
    by decide⟩

/-- C19: for every reader, decompressor and fuel, when `LoadPacket` returns a non-nil error,
either the error is one of the six made while reading the header or the raw payload and the
packet is nil, or the error is made by decoding the payload (subtype 0x49, or subtype 0x4A with
a decompressor error) and the packet is non-nil, with the type and subtype bytes read from the
header and empty data. -/
theorem LoadPacket_error_shape {σ : Type} (reader : Reader σ) (z : FlateReader) (fuel : Nat)
    (s : σ) (r : LoadResult σ) (h : LoadPacket reader z fuel s = some r)
    (herr : r.err ≠ Error.nil) :
    (r.packet = none ∧
      ((∃ e, r.err = Error.ReadError "failed to read packet: header type" e)
        ∨ r.err = Error.errorString
            "failed to read initial header byte, timeout or other undisclosed error hit"
        ∨ (∃ e, r.err = Error.ReadError "failed to read packet: header subtype" e)
        ∨ (∃ e, r.err = Error.ReadError "failed to read packet: header length" e)
        ∨ (∃ e, r.err = Error.ReadError "failed to read packet: bad data read" e)
        ∨ r.err = Error.errorString "failed to read initial packet data: length not met"))
    ∨ (r.packet = some ⟨headerType reader s, headerSubType reader s, [], 0⟩ ∧
      ((headerSubType reader s = 0x49
          ∧ r.err = Error.ReadError "unable to create lzh reader; not yet implemented"
              Error.nil)
        ∨ (headerSubType reader s = 0x4A
          ∧ ∃ e, e ≠ Error.nil ∧ r.err = Error.ReadError "failed to decompress flate data" e)))
    := by
  rcases LoadPacket_inv reader z fuel s r h with
    hread | ⟨_, _, hnil⟩ | ⟨_, L, s2, data, _, _, hf, hcase⟩
  · exact Or.inl hread
  · exact absurd hnil herr
  · right
    rcases hcase with ⟨_, _, _, hnil⟩ | ⟨h49, hd, he⟩ | ⟨h4A, hz⟩ | ⟨_, _, _, _, hnil⟩
    · exact absurd hnil herr
    · subst hd
      exact ⟨hf, Or.inl ⟨h49, he⟩⟩
    · rcases hz with ⟨hd, e, hne, he⟩ | hnil
      · subst hd
        exact ⟨hf, Or.inr ⟨h4A, e, hne, he⟩⟩
      · exact absurd hnil herr
    · exact absurd hnil herr

/-- A frame of subtype 0x49 with one payload byte: the error comes from decoding, and the
packet beside it is non-nil with the two header bytes and no data. -/
theorem LoadPacket_error_shape_witness :
    (LoadPacket bytesBuffer flateReaderCutShort 1 [0x66, 0x49, 1, 0, 0, 0, 7]
        = some ⟨some ⟨0x66, 0x49, [], 0⟩,
            Error.ReadError "unable to create lzh reader; not yet implemented" Error.nil, []⟩
      ∧ Error.ReadError "unable to create lzh reader; not yet implemented" Error.nil
        ≠ Error.nil)
      ∧ (some ⟨0x66, 0x49, [], 0⟩ : Option Packet)
        = some ⟨headerType bytesBuffer [0x66, 0x49, 1, 0, 0, 0, 7],
            headerSubType bytesBuffer [0x66, 0x49, 1, 0, 0, 0, 7], [], 0⟩ :=
  ⟨⟨rfl, by decide⟩,
    (LoadPacket_error_shape bytesBuffer flateReaderCutShort 1 [0x66, 0x49, 1, 0, 0, 0, 7]
      ⟨some ⟨0x66, 0x49, [], 0⟩,
        Error.ReadError "unable to create lzh reader; not yet implemented" Error.nil, []⟩
      rfl (by decide)).elim
      (fun hread => absurd hread.1 (by decide))
      (fun hdec => hdec.1)⟩

/-- The texts of the failures stage by stage, on readers that play back a script. With a
reader error `other 1` at the type, subtype, length and payload stage the four context strings
differ; a short read without error at the length stage ends in the length stage text and one
at the payload stage in a text of its own. The fuel is 4. -/
theorem LoadPacket_stage_texts (z : FlateReader) :
    LoadPacket scripted z 4 [([], Error.other 1)]
        = some ⟨none, Error.ReadError "failed to read packet: header type" (Error.other 1), []⟩
      ∧ LoadPacket scripted z 4 [([0x66], Error.nil), ([], Error.other 1)]
        = some ⟨none,
            Error.ReadError "failed to read packet: header subtype" (Error.other 1), []⟩
      ∧ LoadPacket scripted z 4
          [([0x66], Error.nil), ([0x48], Error.nil), ([], Error.other 1)]
        = some ⟨none,
            Error.ReadError "failed to read packet: header length" (Error.other 1), []⟩
      ∧ LoadPacket scripted z 4
          [([0x66], Error.nil), ([0x48], Error.nil), ([3, 0, 0, 0], Error.nil),
            ([], Error.other 1)]
        = some ⟨none,
            Error.ReadError "failed to read packet: bad data read" (Error.other 1), []⟩
      ∧ LoadPacket scripted z 4
          [([0x66], Error.nil), ([0x48], Error.nil), ([3, 0], Error.nil)]
        = some ⟨none,
            Error.ReadError "failed to read packet: header length" Error.ErrUnexpectedEOF, []⟩
      ∧ LoadPacket scripted z 4
          [([0x66], Error.nil), ([0x48], Error.nil), ([3, 0, 0, 0], Error.nil),
            ([7], Error.nil)]
        = some ⟨none,
            Error.errorString "failed to read initial packet data: length not met", []⟩ := by
  exact ⟨rfl, rfl, rfl, rfl, rfl, rfl⟩

/-! ## Decoding on every reader

`LoadPacket` tests the error of a `Read` before its count and takes the payload with a single
`Read`. What it returns for a frame therefore depends on how the reader hands the bytes over:
the statements of this section say for which readers a frame is decoded, and show readers for
which it is not. -/

end packet
